import Mathlib

/-!
Shallow embedding of the semantic video search engine
(backend/video_search.py) and verification of its specification.

Modelling conventions:
  - Python machine floats are modelled by rationals; the external libraries
    (OpenCV, sentence-transformers, FAISS) are modelled by explicit data:
    a VideoSource carries the decoded frames, a SentenceTransformerModel
    carries the two encode capabilities as functions, and IndexFlatIP is
    modelled exactly (exhaustive inner-product scan, top-k sorted by
    descending score with ascending-id tie-breaking, padded with label -1
    and the lowest-float sentinel score when k exceeds ntotal, which is the
    documented deterministic behaviour of FAISS flat indexes).
  - faiss.normalize_L2 is a floating-point library routine; it is passed to
    build_index and search as an explicit function argument, exactly where
    the source calls it.
  - Fallible Python code returns Except; an operation that mutates the
    engine object before raising returns the partially mutated engine
    inside the error, matching Python exception semantics on objects.
  - Line 32 of the source, written saved_count = 0VS, is not well-formed
    Python (claim C3); the loop is embedded with the evident intended
    statement saved_count = 0, and the lexical defect is modelled
    separately by the Python numeric-literal recognizer below.
-/

/-- Python exception classes that the embedded code can raise. -/
inductive PyError where
  | zeroDivisionError
  | indexError
  | valueError
  | fileNotFoundError
  | runtimeError
  | unpicklingError
  | typeError
  | invalidDecimalLiteral
deriving DecidableEq, Repr

/-- Embedding vectors are finite sequences of rationals. -/
abbrev Vec := List ℚ

/-- Inner product of two vectors, the similarity that faiss.IndexFlatIP uses. -/
def ip (u v : Vec) : ℚ := (List.zipWith (· * ·) u v).sum

/-- Sentinel score that FAISS writes into missing result slots of an
inner-product search: the lowest single-precision float, -FLT_MAX,
whose exact value is -(2 ^ 128 - 2 ^ 104), written out as a literal. -/
def padScore : ℚ := -340282346638528859811704183484516925440

/-- Model of faiss.IndexFlatIP: the declared dimension and the stored
vectors in insertion order; the row position of a vector is its list
position. -/
structure FaissIndexFlatIP where
  d : ℕ
  xb : List Vec
deriving DecidableEq, Repr

/-- Number of stored vectors, faiss ntotal. -/
def FaissIndexFlatIP.ntotal (ix : FaissIndexFlatIP) : ℕ := ix.xb.length

/-- Model of index.add: faiss asserts that every row has the declared
dimension, then appends all rows. -/
def FaissIndexFlatIP.add (ix : FaissIndexFlatIP) (vs : List Vec) :
    Except PyError FaissIndexFlatIP :=
  if vs.all (fun v => v.length == ix.d) then .ok { ix with xb := ix.xb ++ vs }
  else .error .runtimeError

/-- Comparison used to order search hits: higher score first, ties broken
by ascending row id (the deterministic tie-breaking of FAISS heaps). -/
def hitLE (a b : ℚ × ℤ) : Bool :=
  decide (b.1 < a.1 ∨ (a.1 = b.1 ∧ a.2 ≤ b.2))

/-- Every stored vector paired with its inner-product score against the
query and its row id. -/
def scoredHits (ix : FaissIndexFlatIP) (q : Vec) : List (ℚ × ℤ) :=
  (List.enumFrom 0 ix.xb).map (fun p => (ip q p.2, (p.1 : ℤ)))

/-- Model of index.search on a single query row: score every stored vector
by inner product, sort by descending score with ascending-id ties, keep the
first k, and pad with (padScore, -1) entries when k exceeds ntotal, so the
result always has length k. -/
def FaissIndexFlatIP.search (ix : FaissIndexFlatIP) (q : Vec) (k : ℕ) :
    List (ℚ × ℤ) :=
  ((scoredHits ix q).mergeSort hitLE).take k
    ++ List.replicate (k - ix.xb.length) (padScore, -1)

/-- One sampled frame, the dictionary built at lines 45-50 of the source. -/
structure FrameRecord where
  timestamp_ms : ℚ
  timestamp_sec : ℚ
  frame_path : String
  frame_index : ℕ
deriving DecidableEq, Repr, Inhabited

/-- One decodable frame of the source video together with the presentation
timestamp that cv2 reports right after reading it. -/
structure SrcFrame where
  pos_msec : ℚ
deriving DecidableEq, Repr

/-- Model of a video file as cv2.VideoCapture exposes it: the native frame
rate and the decode-ordered frames. An unopenable file reports rate 0 and
no frames, without raising. -/
structure VideoSource where
  native_fps : ℚ
  frames : List SrcFrame
deriving DecidableEq, Repr

/-- Truncation toward zero of a rational, the behaviour of Python int()
applied to a float. -/
def pyTrunc (q : ℚ) : ℤ := q.num.tdiv q.den

/-- Model of int(a / b) for float a and int b in Python: raises
ZeroDivisionError on b = 0, otherwise truncates the exact quotient
toward zero. -/
def pyTruncDiv (a : ℚ) (b : ℤ) : Except PyError ℤ :=
  if b = 0 then .error .zeroDivisionError else .ok (pyTrunc (a / b))

/-- Model of the Python modulo operator on integers: raises
ZeroDivisionError on a zero divisor, otherwise floor-based remainder
(sign of the divisor), which is Int.fmod. -/
def pyMod (a b : ℤ) : Except PyError ℤ :=
  if b = 0 then .error .zeroDivisionError else .ok (Int.fmod a b)

/-- Zero-padded five-digit rendering of a natural number, the Python
format specifier 05d. -/
def pad5 (n : ℕ) : String :=
  let s := toString n
  String.mk (List.replicate (5 - s.length) (Char.ofNat 48)) ++ s

/-- Path of the stored image of the frame with the given saved index,
os.path.join of the output directory with the formatted file name. -/
def framePath (dir : String) (saved : ℕ) : String :=
  dir ++ "/frame_" ++ pad5 saved ++ ".jpg"

/-- The frame dictionary appended at lines 45-50 of the source for a
retained frame. -/
def mkFrameRecord (dir : String) (saved : ℕ) (f : SrcFrame) : FrameRecord :=
  { timestamp_ms := f.pos_msec
    timestamp_sec := f.pos_msec / 1000
    frame_path := framePath dir saved
    frame_index := saved }

/-- The while loop of extract_frames: walk the decoded frames keeping the
running decode position frame_count and the running retained count
saved_count, keeping exactly the frames whose decode position satisfies
frame_count % frame_interval == 0. A zero interval raises
ZeroDivisionError at the first modulo, exactly as in Python. -/
def extractLoop (dir : String) (interval : ℤ) :
    List SrcFrame → ℕ → ℕ → Except PyError (List FrameRecord)
  | [], _, _ => .ok []
  | f :: rest, frame_count, saved_count =>
    match pyMod (frame_count : ℤ) interval with
    | .error e => .error e
    | .ok r =>
      if r = 0 then
        match extractLoop dir interval rest (frame_count + 1) (saved_count + 1) with
        | .error e => .error e
        | .ok rs => .ok (mkFrameRecord dir saved_count f :: rs)
      else extractLoop dir interval rest (frame_count + 1) saved_count

/-- Model of VideoSearchEngine.extract_frames: computes
frame_interval = int(video_fps / fps) with no lower clamp, then runs the
sampling loop. -/
def extract_frames (video : VideoSource) (output_dir : String) (fps : ℤ) :
    Except PyError (List FrameRecord) :=
  match pyTruncDiv video.native_fps fps with
  | .error e => .error e
  | .ok interval => extractLoop output_dir interval video.frames 0 0

/-- Model of the SentenceTransformer CLIP model: the text-encode and
image-encode capabilities. Image encoding may fail (Image.open or
model.encode raising); the paths of the frame images are its input. -/
structure SentenceTransformerModel where
  encodeText : String → Vec
  encodeImages : List String → Except PyError (List Vec)

/-- The engine object: the embedding model, the optional FAISS index, the
frame metadata list and the configured embedding dimension. -/
structure VideoSearchEngine where
  model : SentenceTransformerModel
  index : Option FaissIndexFlatIP
  frame_data : List FrameRecord
  embedding_dim : ℕ

/-- Engine construction: no index, empty frame data, dimension 512. -/
def VideoSearchEngine.init (m : SentenceTransformerModel) : VideoSearchEngine :=
  { model := m, index := none, frame_data := [], embedding_dim := 512 }

/-- Model of create_embeddings: open every stored frame image and encode
the batch with the CLIP model; any failure of this external step is a
raised exception. -/
def VideoSearchEngine.create_embeddings (e : VideoSearchEngine)
    (frames : List FrameRecord) : Except PyError (List Vec) :=
  e.model.encodeImages (frames.map (·.frame_path))

/-- Model of build_index. The assignment self.frame_data = extract_frames
happens before embedding, so an embedding failure leaves the new frame
data in place; the fresh index is assigned before add, so an add failure
leaves the fresh empty index in place. The error carries the engine as
the exception leaves it. -/
def VideoSearchEngine.build_index (e : VideoSearchEngine) (video : VideoSource)
    (output_dir : String) (fps : ℤ) (normalize : Vec → Vec) :
    Except (PyError × VideoSearchEngine) VideoSearchEngine :=
  match extract_frames video output_dir fps with
  | .error err => .error (err, e)
  | .ok fs =>
    let e1 := { e with frame_data := fs }
    match e1.create_embeddings fs with
    | .error err => .error (err, e1)
    | .ok embs =>
      let ix0 : FaissIndexFlatIP := { d := e1.embedding_dim, xb := [] }
      match ix0.add (embs.map normalize) with
      | .error err => .error (err, { e1 with index := some ix0 })
      | .ok ix1 => .ok { e1 with index := some ix1 }

/-- One entry of the result list built at lines 101-108 of the source. -/
structure SearchResult where
  rank : ℕ
  score : ℚ
  timestamp_sec : ℚ
  timestamp_ms : ℚ
  frame_path : String
  frame_index : ℕ
deriving DecidableEq, Repr, Inhabited

/-- The result dictionary for one kept hit. -/
def mkResult (rank : ℕ) (score : ℚ) (fr : FrameRecord) : SearchResult :=
  { rank := rank
    score := score
    timestamp_sec := fr.timestamp_sec
    timestamp_ms := fr.timestamp_ms
    frame_path := fr.frame_path
    frame_index := fr.frame_index }

/-- Effective position of a Python list subscription: a negative index is
offset by the length. -/
def pyIndex (len : ℕ) (i : ℤ) : ℤ :=
  if i < 0 then i + len else i

/-- Python list subscription with an integer index: a negative index is
offset by the length; out of range raises IndexError. -/
def pyListGet (xs : List FrameRecord) (i : ℤ) : Except PyError FrameRecord :=
  if 0 ≤ pyIndex xs.length i then
    match xs.get? (pyIndex xs.length i).toNat with
    | some r => .ok r
    | none => .error .indexError
  else .error .indexError

/-- The result loop of search (lines 99-109): enumerate all hits, keep a
hit exactly when idx < len(frame_data) (note that this admits the negative
FAISS padding label -1), subscript frame_data with the raw idx, and stamp
the rank with the pre-filter enumeration position plus one. -/
def searchLoop (frame_data : List FrameRecord) :
    ℕ → List (ℚ × ℤ) → Except PyError (List SearchResult)
  | _, [] => .ok []
  | i, (score, idx) :: rest =>
    if idx < (frame_data.length : ℤ) then
      match pyListGet frame_data idx with
      | .error e => .error e
      | .ok fr =>
        match searchLoop frame_data (i + 1) rest with
        | .error e => .error e
        | .ok rs => .ok (mkResult (i + 1) score fr :: rs)
    else searchLoop frame_data (i + 1) rest

/-- Model of VideoSearchEngine.search: ValueError when no index is built,
otherwise encode and normalize the query, run the FAISS search, and join
through the result loop. -/
def VideoSearchEngine.search (e : VideoSearchEngine) (normalize : Vec → Vec)
    (query : String) (top_k : ℕ) : Except PyError (List SearchResult) :=
  match e.index with
  | none => .error .valueError
  | some ix =>
    let q := normalize (e.model.encodeText query)
    searchLoop e.frame_data 0 (ix.search q top_k)

/-- Contents a persisted file can hold: a pickled metadata dictionary, a
serialized FAISS index, or unreadable bytes. -/
inductive Artifact where
  | metadata (frame_data : List FrameRecord)
  | faissIndex (ix : FaissIndexFlatIP)
  | garbage
deriving DecidableEq, Repr

/-- Durable storage: a mapping from file names to their contents. -/
abbrev Disk := String → Option Artifact

/-- Writing a file replaces its previous contents. -/
def Disk.write (dsk : Disk) (name : String) (a : Artifact) : Disk :=
  fun n => if n = name then some a else dsk n

/-- Model of save: write the metadata pickle first, unconditionally; then
faiss.write_index, which raises on a None index, after the metadata file
is already durably written. The error carries the disk as the exception
leaves it. -/
def VideoSearchEngine.save (e : VideoSearchEngine) (dsk : Disk) (path : String) :
    Except (PyError × Disk) Disk :=
  let d1 := dsk.write (path ++ "_metadata.pkl") (.metadata e.frame_data)
  match e.index with
  | none => .error (.typeError, d1)
  | some ix => .ok (d1.write (path ++ "_index.faiss") (.faissIndex ix))

/-- Model of load: open and unpickle the metadata file (FileNotFoundError
when missing, UnpicklingError when unreadable), assign frame_data, then
faiss.read_index (RuntimeError when missing or unreadable). No
cross-artifact consistency check of any kind is performed. The error
carries the engine as the exception leaves it. -/
def VideoSearchEngine.load (e : VideoSearchEngine) (dsk : Disk) (path : String) :
    Except (PyError × VideoSearchEngine) VideoSearchEngine :=
  match dsk (path ++ "_metadata.pkl") with
  | none => .error (.fileNotFoundError, e)
  | some (.faissIndex _) => .error (.unpicklingError, e)
  | some .garbage => .error (.unpicklingError, e)
  | some (.metadata fd) =>
    let e1 := { e with frame_data := fd }
    match dsk (path ++ "_index.faiss") with
    | some (.faissIndex ix) => .ok { e1 with index := some ix }
    | some _ => .error (.runtimeError, e1)
    | none => .error (.runtimeError, e1)

/-- Total read of a search outcome: the result list of a success, the
empty list on an exception. Used to state theorems about the value a
successful search returns. -/
def resultsOf (x : Except PyError (List SearchResult)) : List SearchResult :=
  match x with
  | .ok rs => rs
  | .error _ => []

/-- Total companion of pyListGet used in closed-form statements; agrees
with pyListGet wherever the latter succeeds. -/
def pyGetD (xs : List FrameRecord) (i : ℤ) : FrameRecord :=
  match pyListGet xs i with
  | .ok r => r
  | .error _ => default

/-- The guard at line 100 of the source: a hit is kept exactly when its
raw row id is below the metadata length. -/
def keptHit (frame_data : List FrameRecord) (h : ℚ × ℤ) : Bool :=
  decide (h.2 < (frame_data.length : ℤ))

/-- Records built for an already filtered frame sequence, numbering them
consecutively from the given saved count. Specification-side companion of
extractLoop used to state closed forms. -/
def buildRecords (dir : String) : ℕ → List SrcFrame → List FrameRecord
  | _, [] => []
  | sc, f :: rest => mkFrameRecord dir sc f :: buildRecords dir (sc + 1) rest

/-- Closed form of the frames the sampler retains for a given interval:
exactly the frames whose decode position is a multiple of the interval,
numbered densely from zero. -/
def specSampledFrames (video : VideoSource) (dir : String) (interval : ℤ) :
    List FrameRecord :=
  buildRecords dir 0
    (((List.enumFrom 0 video.frames).filter
        (fun p => decide ((p.1 : ℤ) % interval = 0))).map Prod.snd)

/-- A character that may continue a Python identifier. -/
def pyIdentChar (c : Char) : Bool := c.isAlpha || c.isDigit || c == '_'

/-- A binary digit. -/
def isBinDigit (c : Char) : Bool := c == '0' || c == '1'

/-- An octal digit. -/
def isOctDigit (c : Char) : Bool := 48 ≤ c.toNat && c.toNat ≤ 55

/-- A hexadecimal digit. -/
def isHexDigitChar (c : Char) : Bool :=
  c.isDigit || (97 ≤ c.toNat && c.toNat ≤ 102) || (65 ≤ c.toNat && c.toNat ≤ 70)

/-- Continuation of a Python digit run: digits of the given kind with
single underscores allowed between digits. -/
def digitTail (isD : Char → Bool) : List Char → Bool
  | [] => true
  | c :: rest =>
    if c = '_' then
      match rest with
      | [] => false
      | c2 :: r2 => isD c2 && digitTail isD r2
    else isD c && digitTail isD rest

/-- A nonempty Python digit run: a digit of the given kind followed by a
digit tail. -/
def digitRun (isD : Char → Bool) : List Char → Bool
  | [] => false
  | c :: rest => isD c && digitTail isD rest

/-- Body of a prefixed integer literal: an optional leading underscore
then a digit run. -/
def prefixedBody (isD : Char → Bool) : List Char → Bool
  | '_' :: rest => digitRun isD rest
  | cs => digitRun isD cs

/-- The Python integer-literal grammar: decimal (no leading zero unless
all zeros), binary, octal or hexadecimal with their prefixes. -/
def pyIntegerLiteral (cs : List Char) : Bool :=
  match cs with
  | [] => false
  | '0' :: rest =>
    match rest with
    | [] => true
    | p :: body =>
      if p == 'b' || p == 'B' then prefixedBody isBinDigit body
      else if p == 'o' || p == 'O' then prefixedBody isOctDigit body
      else if p == 'x' || p == 'X' then prefixedBody isHexDigitChar body
      else digitTail (fun c => c == '0') rest
  | c :: rest => c.isDigit && !(c == '0') && digitTail Char.isDigit rest

/-- An optionally signed decimal digit run, the exponent part of a float
literal after the e. -/
def signedDigits : List Char → Bool
  | '+' :: rest => digitRun Char.isDigit rest
  | '-' :: rest => digitRun Char.isDigit rest
  | cs => digitRun Char.isDigit cs

/-- Split a character list at the first occurrence of either marker
character, returning the part before and the part after it. -/
def splitAtChar (m1 m2 : Char) : List Char → Option (List Char × List Char)
  | [] => none
  | c :: rest =>
    if c = m1 ∨ c = m2 then some ([], rest)
    else
      match splitAtChar m1 m2 rest with
      | some (pre, post) => some (c :: pre, post)
      | none => none

/-- The fraction-and-integer part of a Python float literal: digits, or
digits dot, or dot digits, or digits dot digits. -/
def pyPointPart (cs : List Char) : Bool :=
  match splitAtChar '.' '.' cs with
  | none => digitRun Char.isDigit cs
  | some (pre, post) =>
    (digitRun Char.isDigit pre && (post.isEmpty || digitRun Char.isDigit post))
      || (pre.isEmpty && digitRun Char.isDigit post)

/-- The Python float-literal grammar: a point part with an optional
exponent, or a plain digit run with a mandatory exponent. -/
def pyFloatLiteral (cs : List Char) : Bool :=
  match splitAtChar 'e' 'E' cs with
  | none =>
    (match splitAtChar '.' '.' cs with
     | none => false
     | some _ => pyPointPart cs)
  | some (mant, expo) => pyPointPart mant && signedDigits expo

/-- The Python numeric-literal grammar for a complete token: an integer
literal, a float literal, or either followed by the imaginary suffix. -/
def pyNumericLiteral (s : String) : Bool :=
  let cs := s.toList
  pyIntegerLiteral cs || pyFloatLiteral cs ||
    (match cs.getLast? with
     | some c =>
       (c == 'j' || c == 'J') &&
         (pyIntegerLiteral cs.dropLast || pyFloatLiteral cs.dropLast)
     | none => false)

/-- The maximal run of identifier-class characters standing on the right
of the assignment at line 32 of video_search.py. Because it begins with a
digit, the CPython tokenizer must read it as one numeric token. -/
def line32Token : String := "0VS"

/-- A Python module compiles only if every token lexes; the module
defining VideoSearchEngine hinges on the line-32 token being a valid
numeric literal. -/
def videoSearchModuleOk : Bool := pyNumericLiteral line32Token

/-- Importing the module: a lexing failure surfaces as a SyntaxError
(invalid decimal literal) before any definition is executed. -/
def importVideoSearchModule : Except PyError Unit :=
  if videoSearchModuleOk then .ok () else .error .invalidDecimalLiteral

/-- The public operations of the engine class. -/
inductive PublicOp where
  | buildIndexOp
  | searchOp
  | saveOp
  | loadOp
deriving DecidableEq, Repr

/-- Invoking any public operation first requires the defining module to
import; with the module broken, every invocation fails with the import
error. -/
def invokePublic (op : PublicOp) : Except PyError PublicOp :=
  match importVideoSearchModule with
  | .error e => .error e
  | .ok _ => .ok op

/-- Ordering the specification asserts for returned results: descending
score, ties by ascending frame index. -/
def resultOrder (a b : SearchResult) : Prop :=
  b.score < a.score ∨ (a.score = b.score ∧ a.frame_index ≤ b.frame_index)

/-- Identity normalization: on the unit-norm vectors used in the concrete
fixtures below, faiss.normalize_L2 acts as the identity, so this function
coincides with it on every input the fixtures touch. -/
def normId : Vec → Vec := fun v => v

/-- Fixture model: every text encodes to the unit vector, image encoding
succeeds with no vectors. -/
def mdlUnit : SentenceTransformerModel :=
  { encodeText := fun _ => [1], encodeImages := fun _ => .ok [] }

/-- Fixture model whose image-encode capability always fails. -/
def mdlFail : SentenceTransformerModel :=
  { encodeText := fun _ => [1], encodeImages := fun _ => .error .runtimeError }

/-- Fixture frame record with index 0. -/
def rec0 : FrameRecord :=
  { timestamp_ms := 0, timestamp_sec := 0,
    frame_path := "frames/frame_00000.jpg", frame_index := 0 }

/-- Fixture frame record with index 1. -/
def rec1 : FrameRecord :=
  { timestamp_ms := 1000, timestamp_sec := 1,
    frame_path := "frames/frame_00001.jpg", frame_index := 1 }

/-- Fixture record used as the pre-existing engine state in the build
counterexample. -/
def recOld : FrameRecord :=
  { timestamp_ms := 5, timestamp_sec := 5 / 1000,
    frame_path := "old/frame_00000.jpg", frame_index := 0 }

/-- Simple numbered metadata record used for persisted artifacts. -/
def mkSimpleRecord (i : ℕ) : FrameRecord :=
  { timestamp_ms := (i : ℚ), timestamp_sec := (i : ℚ),
    frame_path := framePath "frames" i, frame_index := i }

/-- The empty disk. -/
def diskEmpty : Disk := fun _ => none

/-- A freshly constructed engine over the fixture model. -/
def engine0 : VideoSearchEngine := VideoSearchEngine.init mdlUnit

/-- Persisted metadata with ten records. -/
def mdC1 : List FrameRecord := (List.range 10).map mkSimpleRecord

/-- Persisted index with nine vectors. -/
def ixC1 : FaissIndexFlatIP := { d := 512, xb := List.replicate 9 [1] }

/-- Disk holding a metadata artifact with ten records next to an index
artifact with nine vectors under the base name idx. -/
def diskC1 : Disk :=
  (diskEmpty.write "idx_metadata.pkl" (.metadata mdC1)).write
    "idx_index.faiss" (.faissIndex ixC1)

/-- Engine whose embedding provider fails, holding a prior built state. -/
def eC2 : VideoSearchEngine :=
  { model := mdlFail, index := some { d := 512, xb := [[1]] },
    frame_data := [recOld], embedding_dim := 512 }

/-- One-frame video source with native rate 1. -/
def videoC2 : VideoSource := { native_fps := 1, frames := [{ pos_msec := 0 }] }

/-- The record the sampler produces for the single frame of videoC2. -/
def recC2new : FrameRecord :=
  { timestamp_ms := 0, timestamp_sec := 0,
    frame_path := "frames/frame_00000.jpg", frame_index := 0 }

/-- Populated engine with one indexed vector and one metadata record. -/
def eC4 : VideoSearchEngine :=
  { model := mdlUnit, index := some { d := 1, xb := [[1]] },
    frame_data := [rec0], embedding_dim := 512 }

/-- One-frame video source with native rate 1, so a target rate of 2
makes the computed interval zero. -/
def videoC5 : VideoSource := { native_fps := 1, frames := [{ pos_msec := 0 }] }

/-- Four-frame video source with native rate 30 for the sampler witness. -/
def videoW : VideoSource :=
  { native_fps := 30,
    frames := [{ pos_msec := 0 }, { pos_msec := 33 }, { pos_msec := 66 },
               { pos_msec := 100 }] }

/-- The index of the C6 fixture, one unit vector. -/
def ixC6 : FaissIndexFlatIP := { d := 1, xb := [[1]] }

/-- Populated engine for the out-of-range-hit counterexample. -/
def eC6 : VideoSearchEngine :=
  { model := mdlUnit, index := some ixC6,
    frame_data := [rec0], embedding_dim := 512 }

/-- Populated consistent engine with a score tie between rows 0 and 1;
the two stored vectors are equal, so their query scores tie. -/
def eC7 : VideoSearchEngine :=
  { model := mdlUnit, index := some { d := 1, xb := [[], []] },
    frame_data := [rec0, rec1], embedding_dim := 512 }

/-- Engine with two indexed vectors but a single metadata record, where
the best hit has row id 1 and is dropped by the join. -/
def eC8 : VideoSearchEngine :=
  { model := mdlUnit, index := some { d := 1, xb := [[1], [2]] },
    frame_data := [rec0], embedding_dim := 512 }

/-- The index of the round-trip fixture, one unit vector. -/
def ixC9 : FaissIndexFlatIP := { d := 1, xb := [[1]] }

/-- Populated engine for the persistence round trip. -/
def eC9 : VideoSearchEngine :=
  { model := mdlUnit, index := some ixC9,
    frame_data := [rec0], embedding_dim := 512 }

/-- The disk produced by saving the round-trip fixture under base name p. -/
def diskC9 : Disk :=
  (diskEmpty.write ("p" ++ "_metadata.pkl") (.metadata eC9.frame_data)).write
    ("p" ++ "_index.faiss") (.faissIndex ixC9)

/-- The engine state the round-trip load installs. -/
def eC9loaded : VideoSearchEngine :=
  { engine0 with frame_data := eC9.frame_data, index := some ixC9 }

/-- Membership in an enumerated list bounds the counter and projects into
the underlying list. -/
theorem mem_enumFrom_spec {α : Type} {l : List α} :
    ∀ {i : ℕ} {p : ℕ × α}, p ∈ List.enumFrom i l →
      i ≤ p.1 ∧ p.1 < i + l.length ∧ p.2 ∈ l := by
  induction l with
  | nil => intro i p h; simp [List.enumFrom] at h
  | cons x xs ih =>
    intro i p h
    rw [List.enumFrom_cons] at h
    rcases List.mem_cons.mp h with h1 | h2
    · subst h1
      refine ⟨le_refl _, by simp, List.mem_cons_self _ _⟩
    · obtain ⟨h3, h4, h5⟩ := ih h2
      exact ⟨by omega, by simp only [List.length_cons]; omega,
        List.mem_cons_of_mem _ h5⟩

/-- Transitivity of the hit ordering. -/
theorem hitLE_trans :
    ∀ (a b c : ℚ × ℤ), hitLE a b = true → hitLE b c = true → hitLE a c = true := by
  intro a b c hab hbc
  simp only [hitLE, decide_eq_true_eq] at hab hbc ⊢
  rcases hab with h1 | ⟨h1, h2⟩ <;> rcases hbc with h3 | ⟨h3, h4⟩
  · exact Or.inl (lt_trans h3 h1)
  · exact Or.inl (h3 ▸ h1)
  · exact Or.inl (h1 ▸ h3)
  · exact Or.inr ⟨h1.trans h3, le_trans h2 h4⟩

/-- Totality of the hit ordering. -/
theorem hitLE_total : ∀ (a b : ℚ × ℤ), (hitLE a b || hitLE b a) = true := by
  intro a b
  simp only [hitLE, Bool.or_eq_true, decide_eq_true_eq]
  rcases lt_trichotomy a.1 b.1 with h | h | h
  · exact Or.inr (Or.inl h)
  · rcases le_total a.2 b.2 with h2 | h2
    · exact Or.inl (Or.inr ⟨h, h2⟩)
    · exact Or.inr (Or.inr ⟨h.symm, h2⟩)
  · exact Or.inl (Or.inl h)

/-- A FAISS search always returns exactly k hits, padding included. -/
theorem faissSearch_length (ix : FaissIndexFlatIP) (q : Vec) (k : ℕ) :
    (ix.search q k).length = k := by
  unfold FaissIndexFlatIP.search
  rw [List.length_append, List.length_take, List.length_mergeSort,
    List.length_replicate]
  unfold scoredHits
  rw [List.length_map, List.enumFrom_length]
  omega

/-- Every hit a FAISS search returns is either the padding entry or a
genuine scored row with id inside the stored range. -/
theorem faissSearch_mem {ix : FaissIndexFlatIP} {q : Vec} {k : ℕ} {h : ℚ × ℤ}
    (hm : h ∈ ix.search q k) :
    h = (padScore, -1) ∨
      (0 ≤ h.2 ∧ h.2 < (ix.xb.length : ℤ) ∧ ∃ v ∈ ix.xb, h.1 = ip q v) := by
  unfold FaissIndexFlatIP.search at hm
  rcases List.mem_append.mp hm with h1 | h2
  · right
    have h3 : h ∈ (scoredHits ix q).mergeSort hitLE := List.mem_of_mem_take h1
    have h4 : h ∈ scoredHits ix q := List.mem_mergeSort.mp h3
    unfold scoredHits at h4
    obtain ⟨p, hp, he⟩ := List.mem_map.mp h4
    obtain ⟨hp1, hp2, hp3⟩ := mem_enumFrom_spec hp
    subst he
    refine ⟨Int.ofNat_nonneg _, ?_, p.2, hp3, rfl⟩
    exact_mod_cast by omega
  · exact Or.inl (List.mem_replicate.mp h2).2

/-- Subscription at a nonnegative in-range index returns the list entry
there. -/
theorem pyListGet_nonneg {xs : List FrameRecord} {j : ℤ} (h0 : 0 ≤ j)
    (hh : j.toNat < xs.length) :
    pyListGet xs j = .ok (xs.get ⟨j.toNat, hh⟩) := by
  unfold pyListGet pyIndex
  rw [if_neg (not_lt.mpr h0), if_pos h0, List.get?_eq_get hh]

/-- Subscription at -1 of a nonempty list returns its last entry. -/
theorem pyListGet_neg_one {xs : List FrameRecord} (h : 1 ≤ xs.length) :
    ∃ (hh : xs.length - 1 < xs.length),
      pyListGet xs (-1) = .ok (xs.get ⟨xs.length - 1, hh⟩) := by
  refine ⟨by omega, ?_⟩
  unfold pyListGet pyIndex
  have h1 : (-1 : ℤ) < 0 := by omega
  rw [if_pos h1, if_pos (by omega)]
  have h2 : ((-1 : ℤ) + (xs.length : ℤ)).toNat = xs.length - 1 := by omega
  rw [h2, List.get?_eq_get (by omega)]

/-- The total subscription agrees with a successful fallible one. -/
theorem pyGetD_eq {xs : List FrameRecord} {j : ℤ} {r : FrameRecord}
    (h : pyListGet xs j = .ok r) : pyGetD xs j = r := by
  unfold pyGetD
  rw [h]

/-- The result loop never raises and produces the enumerated, filtered,
joined hit list, provided subscription succeeds at every kept hit. -/
theorem searchLoop_eq_ok (fd : List FrameRecord) :
    ∀ (hits : List (ℚ × ℤ)) (i : ℕ),
      (∀ h ∈ hits, keptHit fd h = true → (pyListGet fd h.2).isOk = true) →
      searchLoop fd i hits =
        .ok (((List.enumFrom i hits).filter (fun p => keptHit fd p.2)).map
          (fun p => mkResult (p.1 + 1) p.2.1 (pyGetD fd p.2.2))) := by
  intro hits
  induction hits with
  | nil => intro i _; simp [searchLoop, List.enumFrom]
  | cons h rest ih =>
    intro i hok
    obtain ⟨s, idx⟩ := h
    rw [List.enumFrom_cons, List.filter_cons]
    by_cases hkept : idx < (fd.length : ℤ)
    · have hkb : keptHit fd ((i, (s, idx)) : ℕ × ℚ × ℤ).2 = true := by
        simp [keptHit, hkept]
      rw [if_pos hkb]
      have hokh : (pyListGet fd idx).isOk = true :=
        hok (s, idx) (List.mem_cons_self _ _) (by simp [keptHit, hkept])
      obtain ⟨r, hr⟩ : ∃ r, pyListGet fd idx = .ok r := by
        cases hget : pyListGet fd idx with
        | ok r => exact ⟨r, rfl⟩
        | error e => rw [hget] at hokh; simp [Except.isOk, Except.toBool] at hokh
      have hrec := ih (i + 1) (fun h hm hk => hok h (List.mem_cons_of_mem _ hm) hk)
      simp only [searchLoop]
      rw [if_pos hkept, hr, hrec]
      simp only [List.map_cons, pyGetD_eq hr]
    · have hkb : keptHit fd ((i, (s, idx)) : ℕ × ℚ × ℤ).2 = false := by
        simp [keptHit, hkept]
      rw [if_neg (by simp [hkb])]
      have hrec := ih (i + 1) (fun h hm hk => hok h (List.mem_cons_of_mem _ hm) hk)
      simp only [searchLoop]
      rw [if_neg hkept, hrec]

/-- Length of the kept part of an enumerated filter is the count of
matching entries of the underlying list. -/
theorem length_filter_enumFrom {α : Type} (pred : α → Bool) :
    ∀ (l : List α) (i : ℕ),
      ((List.enumFrom i l).filter (fun p => pred p.2)).length = l.countP pred := by
  intro l
  induction l with
  | nil => intro i; simp [List.enumFrom, List.countP_nil]
  | cons x xs ih =>
    intro i
    rw [List.enumFrom_cons, List.filter_cons, List.countP_cons]
    by_cases hp : pred x
    · rw [if_pos (by simpa using hp), List.length_cons, ih, if_pos hp]
    · rw [if_neg (by simpa using hp), ih, if_neg hp]
      omega

/-- Subscription succeeds at every hit a FAISS search can return, as long
as the metadata list is nonempty and the hit passes the kept guard. -/
theorem pyListGet_isOk_of_hit {fd : List FrameRecord} (hN : 1 ≤ fd.length)
    {ix : FaissIndexFlatIP} {q : Vec} {k : ℕ} {h : ℚ × ℤ}
    (hm : h ∈ ix.search q k) (hk : keptHit fd h = true) :
    (pyListGet fd h.2).isOk = true := by
  rcases faissSearch_mem hm with hpad | ⟨h0, _, _⟩
  · obtain ⟨hh, he⟩ := @pyListGet_neg_one fd hN
    rw [hpad]
    rw [he]
    rfl
  · simp only [keptHit, decide_eq_true_eq] at hk
    have hh : h.2.toNat < fd.length := by omega
    rw [pyListGet_nonneg h0 hh]
    rfl

/-- Master closed form of a search on a populated engine: it succeeds and
returns the enumerated, guard-filtered, joined hit list. -/
theorem search_eq_ok (e : VideoSearchEngine) (ix : FaissIndexFlatIP)
    (nz : Vec → Vec) (qs : String) (k : ℕ) (hix : e.index = some ix)
    (hN : 1 ≤ e.frame_data.length) :
    e.search nz qs k =
      .ok (((List.enumFrom 0 (ix.search (nz (e.model.encodeText qs)) k)).filter
          (fun p => keptHit e.frame_data p.2)).map
        (fun p => mkResult (p.1 + 1) p.2.1 (pyGetD e.frame_data p.2.2))) := by
  unfold VideoSearchEngine.search
  rw [hix]
  exact searchLoop_eq_ok e.frame_data _ 0
    (fun h hm hk => pyListGet_isOk_of_hit hN hm hk)

/-- The sampling loop with a positive interval never raises and retains
exactly the frames whose decode position is a multiple of the interval,
numbering them consecutively. -/
theorem extractLoop_eq_ok (dir : String) {interval : ℤ} (hi : 1 ≤ interval) :
    ∀ (fs : List SrcFrame) (fc sc : ℕ),
      extractLoop dir interval fs fc sc =
        .ok (buildRecords dir sc
          (((List.enumFrom fc fs).filter
              (fun p => decide ((p.1 : ℤ) % interval = 0))).map Prod.snd)) := by
  intro fs
  induction fs with
  | nil => intro fc sc; simp [extractLoop, List.enumFrom, buildRecords]
  | cons f rest ih =>
    intro fc sc
    have hmod : pyMod (fc : ℤ) interval = .ok ((fc : ℤ) % interval) := by
      unfold pyMod
      rw [if_neg (by omega), Int.fmod_eq_emod _ (by omega)]
    rw [List.enumFrom_cons, List.filter_cons]
    simp only [extractLoop, hmod]
    by_cases hz : (fc : ℤ) % interval = 0
    · rw [if_pos hz, ih (fc + 1) (sc + 1),
        if_pos (by simpa using hz)]
      simp [buildRecords]
    · rw [if_neg hz, ih (fc + 1) sc, if_neg (by simpa using hz)]

/-- The records built for a filtered frame sequence carry consecutive
frame indexes starting at the given count. -/
theorem buildRecords_frame_index (dir : String) :
    ∀ (l : List SrcFrame) (sc : ℕ),
      (buildRecords dir sc l).map (·.frame_index) = List.range' sc l.length := by
  intro l
  induction l with
  | nil => intro sc; simp [buildRecords]
  | cons f rest ih =>
    intro sc
    simp only [buildRecords, List.map_cons, List.length_cons, List.range'_succ]
    rw [ih (sc + 1)]
    simp [mkFrameRecord]

/-- The number of records built equals the number of frames given. -/
theorem buildRecords_length (dir : String) (l : List SrcFrame) (sc : ℕ) :
    (buildRecords dir sc l).length = l.length := by
  have h := congrArg List.length (buildRecords_frame_index dir l sc)
  rwa [List.length_map, List.length_range'] at h

/-- Pairwise order on a list transfers to its enumeration. -/
theorem pairwise_enumFrom_of {α : Type} {R : α → α → Prop}
    {S : ℕ × α → ℕ × α → Prop}
    (hRS : ∀ p q : ℕ × α, R p.2 q.2 → S p q) :
    ∀ (l : List α) (i : ℕ), l.Pairwise R → (List.enumFrom i l).Pairwise S := by
  intro l
  induction l with
  | nil => intro i _; simp [List.enumFrom]
  | cons x xs ih =>
    intro i hpw
    rw [List.pairwise_cons] at hpw
    rw [List.enumFrom_cons, List.pairwise_cons]
    refine ⟨?_, ih (i + 1) hpw.2⟩
    intro q hq
    exact hRS _ q (hpw.1 q.2 (mem_enumFrom_spec hq).2.2)

/-- The full hit list of a FAISS search is pairwise ordered by descending
score with ties resolved toward smaller joined frame indexes, for a
consistent populated state whose scores do not fall below the sentinel. -/
theorem faissSearch_pairwise_join (fd : List FrameRecord) (ix : FaissIndexFlatIP)
    (q : Vec) (k : ℕ)
    (hnt : ix.xb.length = fd.length)
    (hN : 1 ≤ fd.length)
    (hcons : ∀ i (h : i < fd.length), (fd.get ⟨i, h⟩).frame_index = i)
    (hscore : ∀ v ∈ ix.xb, padScore ≤ ip q v) :
    (ix.search q k).Pairwise (fun a b =>
      b.1 < a.1 ∨
        (a.1 = b.1 ∧ (pyGetD fd a.2).frame_index ≤ (pyGetD fd b.2).frame_index)) := by
  have hmem : ∀ c ∈ ((scoredHits ix q).mergeSort hitLE).take k,
      0 ≤ c.2 ∧ c.2 < (fd.length : ℤ) ∧ ∃ v ∈ ix.xb, c.1 = ip q v := by
    intro c hc
    have h3 := List.mem_mergeSort.mp (List.mem_of_mem_take hc)
    unfold scoredHits at h3
    obtain ⟨p, hp, he⟩ := List.mem_map.mp h3
    obtain ⟨_, hp2, hp3⟩ := mem_enumFrom_spec hp
    subst he
    refine ⟨Int.ofNat_nonneg _, ?_, p.2, hp3, rfl⟩
    rw [← hnt]
    exact_mod_cast by omega
  unfold FaissIndexFlatIP.search
  rw [List.pairwise_append]
  refine ⟨?_, ?_, ?_⟩
  · have hpw : ((scoredHits ix q).mergeSort hitLE).Pairwise
        (fun a b => hitLE a b = true) :=
      List.sorted_mergeSort hitLE_trans hitLE_total (scoredHits ix q)
    have hpw2 := List.Pairwise.sublist (List.take_sublist k _) hpw
    refine List.Pairwise.imp_of_mem ?_ hpw2
    intro a b ha hb hab
    obtain ⟨ha0, haN, _⟩ := hmem a ha
    obtain ⟨hb0, hbN, _⟩ := hmem b hb
    simp only [hitLE, decide_eq_true_eq] at hab
    rcases hab with h | ⟨h1, h2⟩
    · exact Or.inl h
    · refine Or.inr ⟨h1, ?_⟩
      have hha : a.2.toNat < fd.length := by omega
      have hhb : b.2.toNat < fd.length := by omega
      rw [pyGetD_eq (pyListGet_nonneg ha0 hha), pyGetD_eq (pyListGet_nonneg hb0 hhb),
        hcons _ hha, hcons _ hhb]
      exact Int.toNat_le_toNat h2
  · rw [List.pairwise_replicate]
    exact Or.inr (Or.inr ⟨rfl, le_refl _⟩)
  · intro a ha b hb
    have hbe : b = (padScore, -1) := (List.mem_replicate.mp hb).2
    obtain ⟨ha0, haN, v, hv, hav⟩ := hmem a ha
    have hps : padScore ≤ a.1 := hav ▸ hscore v hv
    rcases lt_or_eq_of_le hps with h | h
    · exact Or.inl (by rw [hbe]; exact h)
    · refine Or.inr ⟨by rw [hbe, ← h], ?_⟩
      obtain ⟨hhlast, hlast⟩ := @pyListGet_neg_one fd hN
      have hha : a.2.toNat < fd.length := by omega
      rw [pyGetD_eq (pyListGet_nonneg ha0 hha), hcons _ hha, hbe,
        pyGetD_eq hlast, hcons _ hhlast]
      omega

/-- C1 counterexample: a persisted pair whose metadata holds ten records
while the index holds nine vectors loads successfully, with the mismatched
state installed; the claim requires the load to fail. -/
theorem load_mismatch_succeeds :
    engine0.load diskC1 "idx" =
      .ok { engine0 with frame_data := mdC1, index := some ixC1 } ∧
    mdC1.length = 10 ∧ ixC1.ntotal = 9 :=
  ⟨rfl, by decide, by decide⟩

/-- C1 amended: load performs no cross-artifact consistency check at all;
whenever both artifacts are present and well typed it succeeds and
installs exactly what was read, the vector count and the metadata length
being left entirely unrelated. -/
theorem load_no_consistency_check (e : VideoSearchEngine) (dsk : Disk)
    (path : String) (md : List FrameRecord) (ix : FaissIndexFlatIP)
    (hm : dsk (path ++ "_metadata.pkl") = some (.metadata md))
    (hi : dsk (path ++ "_index.faiss") = some (.faissIndex ix)) :
    e.load dsk path = .ok { e with frame_data := md, index := some ix } := by
  simp only [VideoSearchEngine.load, hm, hi]

/-- C1 amended witness at the mismatched ten-record, nine-vector pair. -/
theorem load_no_consistency_check_witness :
    diskC1 ("idx" ++ "_metadata.pkl") = some (.metadata mdC1) ∧
    diskC1 ("idx" ++ "_index.faiss") = some (.faissIndex ixC1) ∧
    engine0.load diskC1 "idx" =
      .ok { engine0 with frame_data := mdC1, index := some ixC1 } :=
  ⟨rfl, rfl,
    load_no_consistency_check engine0 diskC1 "idx" mdC1 ixC1 rfl rfl⟩

/-- C3: the statement at line 32 of video_search.py assigns the token 0VS,
which is not a Python numeric literal although it starts with a digit, so
the module cannot be imported and every public operation of the engine
fails before executing. -/
theorem module_source_not_wellformed :
    pyNumericLiteral line32Token = false ∧
    importVideoSearchModule = .error .invalidDecimalLiteral ∧
    ∀ op : PublicOp, invokePublic op = .error .invalidDecimalLiteral := by
  refine ⟨by decide, rfl, ?_⟩
  intro op
  rfl

/-- C5 counterexample: with native rate 1 and target rate 2 the claimed
interval max(1, floor(1 / 2)) is 1 and the single frame would be retained,
but the code computes interval 0 and raises ZeroDivisionError at the first
modulo. -/
theorem extract_frames_zero_interval :
    extract_frames videoC5 "frames" 2 = .error .zeroDivisionError ∧
    max 1 (pyTrunc (videoC5.native_fps / 2)) = 1 :=
  ⟨by with_unfolding_all rfl, by with_unfolding_all decide⟩

/-- C5 amended: for a positive target rate whose computed interval
floor(native divided by target) is at least one, the sampler succeeds, the
retained frames are exactly those at decode positions that are multiples
of that interval, and the frame indexes are exactly 0..N-1; there is no
minimum-one clamp, so the case interval = 0 is excluded because it raises
instead. -/
theorem extract_frames_interval_spec (video : VideoSource) (dir : String)
    (fps : ℤ) (hfps : 0 < fps)
    (hint : 1 ≤ pyTrunc (video.native_fps / fps)) :
    extract_frames video dir fps =
      .ok (specSampledFrames video dir (pyTrunc (video.native_fps / fps))) ∧
    (specSampledFrames video dir (pyTrunc (video.native_fps / fps))).map
        (·.frame_index) =
      List.range (specSampledFrames video dir
        (pyTrunc (video.native_fps / fps))).length := by
  constructor
  · unfold extract_frames pyTruncDiv
    rw [if_neg (by omega)]
    exact extractLoop_eq_ok dir hint video.frames 0 0
  · unfold specSampledFrames
    rw [buildRecords_frame_index, buildRecords_length, List.range_eq_range']

/-- C5 amended witness: native rate 30 with target rate 15 gives interval
2, retaining decode positions 0 and 2 with frame indexes 0 and 1. -/
theorem extract_frames_interval_spec_witness :
    (0 : ℤ) < 15 ∧ 1 ≤ pyTrunc (videoW.native_fps / (15 : ℤ)) ∧
    (extract_frames videoW "frames" 15 =
        .ok (specSampledFrames videoW "frames"
          (pyTrunc (videoW.native_fps / (15 : ℤ)))) ∧
      (specSampledFrames videoW "frames"
          (pyTrunc (videoW.native_fps / (15 : ℤ)))).map (·.frame_index) =
        List.range (specSampledFrames videoW "frames"
          (pyTrunc (videoW.native_fps / (15 : ℤ)))).length) :=
  ⟨by decide, by with_unfolding_all decide,
    extract_frames_interval_spec videoW "frames" 15 (by decide)
      (by with_unfolding_all decide)⟩

/-- The two persisted artifact names under one base name never collide. -/
theorem metaKey_ne_indexKey (path : String) :
    path ++ "_metadata.pkl" ≠ path ++ "_index.faiss" := by
  intro h
  have h2 := congrArg String.length h
  rw [String.length_append, String.length_append] at h2
  have h3 : ("_metadata.pkl" : String).length = 13 := rfl
  have h4 : ("_index.faiss" : String).length = 12 := rfl
  omega

/-- C2 counterexample: with a populated prior state and a failing embedding
provider, the failed build leaves the vector index untouched but the frame
metadata already replaced by the new sampling output, so the engine state
is not left exactly as it was. -/
theorem build_mutates_frame_data :
    eC2.build_index videoC2 "frames" 1 normId =
      .error (.runtimeError, { eC2 with frame_data := [recC2new] }) ∧
    [recC2new] ≠ eC2.frame_data ∧
    ({ eC2 with frame_data := [recC2new] } : VideoSearchEngine).index = eC2.index :=
  ⟨by with_unfolding_all rfl, by with_unfolding_all decide, rfl⟩

/-- C2 amended: an embedding-provider failure aborts the build and leaves
the vector index unchanged, but self.frame_data has already been replaced
by the freshly sampled frames before the provider runs, so the prior
metadata table does not survive the failed build. -/
theorem build_failure_keeps_index_replaces_frames (e : VideoSearchEngine)
    (video : VideoSource) (dir : String) (fps : ℤ) (nz : Vec → Vec)
    (fs : List FrameRecord) (err : PyError)
    (hex : extract_frames video dir fps = .ok fs)
    (henc : e.model.encodeImages (fs.map (·.frame_path)) = .error err) :
    e.build_index video dir fps nz =
      .error (err, { e with frame_data := fs }) := by
  simp only [VideoSearchEngine.build_index, hex, VideoSearchEngine.create_embeddings]
  rw [henc]

/-- C2 amended witness at the concrete failing build. -/
theorem build_failure_keeps_index_replaces_frames_witness :
    extract_frames videoC2 "frames" 1 = .ok [recC2new] ∧
    eC2.model.encodeImages ([recC2new].map (·.frame_path)) =
      .error .runtimeError ∧
    eC2.build_index videoC2 "frames" 1 normId =
      .error (.runtimeError, { eC2 with frame_data := [recC2new] }) :=
  ⟨by with_unfolding_all rfl, rfl,
    build_failure_keeps_index_replaces_frames eC2 videoC2 "frames" 1 normId
      [recC2new] .runtimeError (by with_unfolding_all rfl) rfl⟩

/-- C10: save writes the metadata pickle first and unconditionally; on an
engine with no index the subsequent index write raises, leaving the
metadata artifact durably written with no companion index artifact, the
index slot of the disk untouched. -/
theorem save_metadata_before_index (e : VideoSearchEngine) (dsk : Disk)
    (path : String) (h : e.index = none) :
    e.save dsk path =
      .error (.typeError,
        dsk.write (path ++ "_metadata.pkl") (.metadata e.frame_data)) ∧
    dsk.write (path ++ "_metadata.pkl") (.metadata e.frame_data)
        (path ++ "_metadata.pkl") = some (.metadata e.frame_data) ∧
    dsk.write (path ++ "_metadata.pkl") (.metadata e.frame_data)
        (path ++ "_index.faiss") = dsk (path ++ "_index.faiss") := by
  refine ⟨?_, ?_, ?_⟩
  · simp only [VideoSearchEngine.save, h]
  · simp [Disk.write]
  · simp only [Disk.write]
    rw [if_neg (fun hh => metaKey_ne_indexKey path hh.symm)]

/-- C10 witness at a fresh engine and the empty disk. -/
theorem save_metadata_before_index_witness :
    engine0.index = none ∧
    (engine0.save diskEmpty "p" =
      .error (.typeError,
        diskEmpty.write ("p" ++ "_metadata.pkl") (.metadata engine0.frame_data)) ∧
    diskEmpty.write ("p" ++ "_metadata.pkl") (.metadata engine0.frame_data)
        ("p" ++ "_metadata.pkl") = some (.metadata engine0.frame_data) ∧
    diskEmpty.write ("p" ++ "_metadata.pkl") (.metadata engine0.frame_data)
        ("p" ++ "_index.faiss") = diskEmpty ("p" ++ "_index.faiss")) :=
  ⟨rfl, save_metadata_before_index engine0 diskEmpty "p" rfl⟩

/-- C9: saving a populated engine and loading from the same base name
restores the identical frame metadata table and the identical index, and a
search with the same query, the same top count and the same normalizer
returns identical results after the load, for any engine object sharing
the embedding model. -/
theorem save_load_roundtrip (e e2 : VideoSearchEngine) (ix : FaissIndexFlatIP)
    (dsk : Disk) (path : String) (nz : Vec → Vec) (qs : String) (k : ℕ)
    (hix : e.index = some ix) (hm : e2.model = e.model) :
    e.save dsk path =
      .ok ((dsk.write (path ++ "_metadata.pkl") (.metadata e.frame_data)).write
        (path ++ "_index.faiss") (.faissIndex ix)) ∧
    e2.load ((dsk.write (path ++ "_metadata.pkl") (.metadata e.frame_data)).write
        (path ++ "_index.faiss") (.faissIndex ix)) path =
      .ok { e2 with frame_data := e.frame_data, index := some ix } ∧
    ({ e2 with frame_data := e.frame_data, index := some ix } :
        VideoSearchEngine).search nz qs k = e.search nz qs k := by
  refine ⟨?_, ?_, ?_⟩
  · simp only [VideoSearchEngine.save, hix]
  · simp only [VideoSearchEngine.load, Disk.write, ite_true]
    rw [if_neg (metaKey_ne_indexKey path)]
  · simp only [VideoSearchEngine.search, hix, hm]

/-- C9 witness at a concrete one-frame engine. -/
theorem save_load_roundtrip_witness :
    eC9.index = some ixC9 ∧ engine0.model = eC9.model ∧
    (eC9.save diskEmpty "p" = .ok diskC9 ∧
      engine0.load diskC9 "p" = .ok eC9loaded ∧
      eC9loaded.search normId "cat" 1 = eC9.search normId "cat" 1) :=
  ⟨rfl, rfl,
    save_load_roundtrip eC9 engine0 ixC9 diskEmpty "p" normId "cat" 1 rfl rfl⟩

set_option maxRecDepth 16000

/-- C4 counterexample: a populated engine with one indexed vector and one
metadata record, queried with top three, returns three results, not one:
the excess is not clamped, the two FAISS padding hits survive the guard. -/
theorem search_no_clamp :
    (resultsOf (eC4.search normId "cat" 3)).length = 3 ∧
    eC4.frame_data.length = 1 :=
  ⟨by with_unfolding_all decide, by decide⟩

/-- C4 amended: when the indexed vector count equals the metadata length
and top_k is at least that count, the search succeeds but returns exactly
top_k results: the genuine hits plus padding entries with sentinel id -1
that the guard keeps and Python negative indexing joins to the last
record. -/
theorem search_returns_topk_results (e : VideoSearchEngine)
    (ix : FaissIndexFlatIP) (nz : Vec → Vec) (qs : String) (k : ℕ)
    (hix : e.index = some ix)
    (hnt : ix.xb.length = e.frame_data.length)
    (hN : 1 ≤ e.frame_data.length)
    (_hk : e.frame_data.length ≤ k) :
    (e.search nz qs k).isOk = true ∧
    (resultsOf (e.search nz qs k)).length = k := by
  rw [search_eq_ok e ix nz qs k hix hN]
  refine ⟨rfl, ?_⟩
  simp only [resultsOf]
  rw [List.length_map]
  have hall : ∀ p ∈ List.enumFrom 0 (ix.search (nz (e.model.encodeText qs)) k),
      keptHit e.frame_data p.2 = true := by
    intro p hp
    have hp2 := (mem_enumFrom_spec hp).2.2
    rcases faissSearch_mem hp2 with hpad | ⟨_, hlt, _⟩
    · rw [hpad]
      simp only [keptHit, decide_eq_true_eq]
      omega
    · rw [hnt] at hlt
      simp only [keptHit, decide_eq_true_eq]
      exact hlt
  rw [List.filter_eq_self.mpr hall, List.enumFrom_length, faissSearch_length]

/-- C4 amended witness at the one-record engine with top three. -/
theorem search_returns_topk_results_witness :
    eC4.index = some { d := 1, xb := [[1]] } ∧
    (1 : ℕ) = eC4.frame_data.length ∧
    1 ≤ eC4.frame_data.length ∧ eC4.frame_data.length ≤ 3 ∧
    ((eC4.search normId "cat" 3).isOk = true ∧
      (resultsOf (eC4.search normId "cat" 3)).length = 3) :=
  ⟨rfl, rfl, by decide, by decide,
    search_returns_topk_results eC4 { d := 1, xb := [[1]] } normId "cat" 3
      rfl rfl (by decide) (by decide)⟩

/-- C6 counterexample: with one record and one vector, a top-two query
returns the FAISS padding hit with row id -1 as a second result joined to
the last record through Python negative indexing, instead of omitting it;
the returned hit ids are 0 and -1 while [0, 1) is the valid row range. -/
theorem search_returns_padding_row :
    (ixC6.search (normId (eC6.model.encodeText "cat")) 2).map Prod.snd =
      [0, -1] ∧
    (resultsOf (eC6.search normId "cat" 2)).length = 2 ∧
    eC6.frame_data.length = 1 ∧
    (resultsOf (eC6.search normId "cat" 2)).map (·.frame_index) = [0, 0] :=
  ⟨by with_unfolding_all decide, by with_unfolding_all decide, by decide,
    by with_unfolding_all decide⟩

/-- C6 amended: on a populated state the query never raises, and the
results are exactly the hits passing the guard idx less than the metadata
length: hits with row position at or above the length are silently
dropped, while negative padding rows pass the guard and are joined. -/
theorem search_silently_drops_high_rows (e : VideoSearchEngine)
    (ix : FaissIndexFlatIP) (nz : Vec → Vec) (qs : String) (k : ℕ)
    (hix : e.index = some ix) (hN : 1 ≤ e.frame_data.length) :
    (e.search nz qs k).isOk = true ∧
    (resultsOf (e.search nz qs k)).length =
      (ix.search (nz (e.model.encodeText qs)) k).countP (keptHit e.frame_data) := by
  rw [search_eq_ok e ix nz qs k hix hN]
  refine ⟨rfl, ?_⟩
  simp only [resultsOf]
  rw [List.length_map, length_filter_enumFrom]

/-- C6 amended witness on an engine whose index has two vectors but whose
metadata has one record, so the hit with row id 1 is silently dropped. -/
theorem search_silently_drops_high_rows_witness :
    eC8.index = some { d := 1, xb := [[1], [2]] } ∧
    1 ≤ eC8.frame_data.length ∧
    ((eC8.search normId "cat" 2).isOk = true ∧
      (resultsOf (eC8.search normId "cat" 2)).length =
        (({ d := 1, xb := [[1], [2]] } : FaissIndexFlatIP).search
          (normId (eC8.model.encodeText "cat")) 2).countP
          (keptHit eC8.frame_data)) :=
  ⟨rfl, by decide,
    search_silently_drops_high_rows eC8 { d := 1, xb := [[1], [2]] } normId
      "cat" 2 rfl (by decide)⟩

/-- C7: on a populated consistent state whose query scores are no lower
than the sentinel, returned results are ordered by descending score, with
equal scores arranged by ascending frame index. -/
theorem search_results_ordered (e : VideoSearchEngine) (ix : FaissIndexFlatIP)
    (nz : Vec → Vec) (qs : String) (k : ℕ)
    (hix : e.index = some ix)
    (hnt : ix.xb.length = e.frame_data.length)
    (hN : 1 ≤ e.frame_data.length)
    (hcons : ∀ i (h : i < e.frame_data.length),
      (e.frame_data.get ⟨i, h⟩).frame_index = i)
    (hscore : ∀ v ∈ ix.xb, padScore ≤ ip (nz (e.model.encodeText qs)) v) :
    (resultsOf (e.search nz qs k)).Pairwise resultOrder := by
  rw [search_eq_ok e ix nz qs k hix hN]
  simp only [resultsOf]
  rw [List.pairwise_map]
  apply List.Pairwise.filter
  exact pairwise_enumFrom_of (fun p q hpq => hpq) _ 0
    (faissSearch_pairwise_join e.frame_data ix (nz (e.model.encodeText qs)) k
      hnt hN hcons hscore)

/-- C7 witness on a two-frame engine whose two stored vectors tie. -/
theorem search_results_ordered_witness :
    eC7.index = some { d := 1, xb := [[], []] } ∧
    ({ d := 1, xb := [[], []] } : FaissIndexFlatIP).xb.length =
      eC7.frame_data.length ∧
    1 ≤ eC7.frame_data.length ∧
    (∀ i (h : i < eC7.frame_data.length),
      (eC7.frame_data.get ⟨i, h⟩).frame_index = i) ∧
    (∀ v ∈ ({ d := 1, xb := [[], []] } : FaissIndexFlatIP).xb,
      padScore ≤ ip (normId (eC7.model.encodeText "cat")) v) ∧
    (resultsOf (eC7.search normId "cat" 3)).Pairwise resultOrder :=
  ⟨rfl, rfl, by decide, by decide, by decide,
    search_results_ordered eC7 { d := 1, xb := [[], []] } normId "cat" 3
      rfl rfl (by decide) (by decide) (by decide)⟩

/-- C8 counterexample: with two indexed vectors, one metadata record and
the best hit at row 1, the dropped top hit leaves the single returned
result carrying rank 2, so the first post-join element does not have
rank 1. -/
theorem first_result_rank_two :
    resultsOf (eC8.search normId "cat" 2) = [mkResult 2 1 rec0] := by
  with_unfolding_all decide

/-- C8 amended: the rank field equals one plus the position of the hit in
the pre-filter hit enumeration, so ranks are 1-based over the raw FAISS
hit list and show gaps whenever a hit is dropped by the join. -/
theorem ranks_follow_prefilter_enumeration (e : VideoSearchEngine)
    (ix : FaissIndexFlatIP) (nz : Vec → Vec) (qs : String) (k : ℕ)
    (hix : e.index = some ix) (hN : 1 ≤ e.frame_data.length) :
    (resultsOf (e.search nz qs k)).map (·.rank) =
      ((List.enumFrom 0 (ix.search (nz (e.model.encodeText qs)) k)).filter
        (fun p => keptHit e.frame_data p.2)).map (fun p => p.1 + 1) := by
  rw [search_eq_ok e ix nz qs k hix hN]
  simp only [resultsOf]
  rw [List.map_map]
  rfl

/-- C8 amended witness at the gap-producing engine. -/
theorem ranks_follow_prefilter_enumeration_witness :
    eC8.index = some { d := 1, xb := [[1], [2]] } ∧
    1 ≤ eC8.frame_data.length ∧
    (resultsOf (eC8.search normId "cat" 2)).map (·.rank) =
      ((List.enumFrom 0 (({ d := 1, xb := [[1], [2]] } : FaissIndexFlatIP).search
          (normId (eC8.model.encodeText "cat")) 2)).filter
        (fun p => keptHit eC8.frame_data p.2)).map (fun p => p.1 + 1) :=
  ⟨rfl, by decide,
    ranks_follow_prefilter_enumeration eC8 { d := 1, xb := [[1], [2]] } normId
      "cat" 2 rfl (by decide)⟩
